import Mathlib

/-!
# oVirt cloud provider: instance resolution

A shallow embedding of `cmd/ovirt-cloud-provider/ovirt-cloud-provider.go`.

* Go strings and `types.NodeName` are `String`.
* A Go `error` is `Option GoError`; `none` is the `nil` error.
* A Go slice that the code can return as `nil` is a `Slice`, which keeps `nil`
  apart from an allocated slice of length zero.
* A Go `map[string]internal.VM` is a `GoMap`: an association list with one entry per key.
  The order in which `range` visits a map is not fixed by the language, so every
  function that ranges over a map takes a `RangeOrder`, and statements about it
  quantify over all of them.
* The `context.Context` arguments are never read by the code and are left out.
-/

set_option linter.dupNamespace false

namespace Ovirt

/-! ## Records of package `internal` (only the fields this file reads) -/

/-- Modelled from the spec: `internal.Ip`, whose declaration is outside this file;
an address record, read through `ip.Address`. -/
structure Ip where
  Address : String
  deriving DecidableEq, Repr

/-- Modelled from the spec: the wrapper read through `dev.Ips.Ips`. -/
structure Ips where
  Ips : List Ip
  deriving DecidableEq, Repr

/-- Modelled from the spec: a reported device of a nic, read through `dev.Ips`. -/
structure Device where
  Ips : Ips
  deriving DecidableEq, Repr

/-- Modelled from the spec: the wrapper read through `nics.Devices.Devices`. -/
structure Devices where
  Devices : List Device
  deriving DecidableEq, Repr

/-- Modelled from the spec: a network interface, read through `nics.Devices`. -/
structure Nic where
  Devices : Devices
  deriving DecidableEq, Repr

/-- Modelled from the spec: the wrapper read through `vm.Nics.Nics`. -/
structure Nics where
  Nics : List Nic
  deriving DecidableEq, Repr

/-- Modelled from the spec: `internal.VM`, whose declaration is outside this file;
the code reads `Id`, `Name`, `Status` and `Nics`. -/
structure VM where
  Id : String
  Name : String
  Status : String
  Nics : Nics
  deriving DecidableEq, Repr

/-- The Go zero value of `internal.VM`, which a map read yields for an absent key. -/
def VM.zero : VM := ⟨"", "", "", ⟨[]⟩⟩

/-! ## Errors, slices, node addresses -/

/-- An error value. `backend` is a value handed back by the `OvirtApi` collaborator,
`errorf` a value built in this file by `fmt.Errorf` or `errors.New`. -/
inductive GoError where
  | backend (detail : String)
  | errorf (msg : String)
  deriving DecidableEq, Repr

/-- A Go slice as a returned value: `nil`, or an allocated slice with its elements. -/
inductive Slice (α : Type) where
  | nil
  | of (elems : List α)
  deriving DecidableEq, Repr

/-- The Go call `make([]T, 0)`: allocated, length zero. -/
def Slice.make0 {α : Type} : Slice α := Slice.of []

/-- The Go call `append(s, x)`. -/
def Slice.append {α : Type} : Slice α → α → Slice α
  | Slice.nil, x => Slice.of [x]
  | Slice.of xs, x => Slice.of (xs ++ [x])

/-- The elements of a slice; `nil` has none. -/
def Slice.toList {α : Type} : Slice α → List α
  | Slice.nil => []
  | Slice.of xs => xs

/-- The type tag `v1.NodeAddressType`; the code only ever writes `v1.NodeExternalIP`. -/
inductive NodeAddressType where
  | NodeHostName
  | NodeExternalIP
  | NodeInternalIP
  deriving DecidableEq, Repr

/-- The record `v1.NodeAddress`. -/
structure NodeAddress where
  Address : String
  Type_ : NodeAddressType
  deriving DecidableEq, Repr

/-! ## Go maps -/

/-- A `map[string]V`: its entries, one per key. -/
structure GoMap (V : Type) where
  entries : List (String × V)

/-- The Go call `make(map[string]V, n)`: the empty map. -/
def GoMap.make {V : Type} : GoMap V := ⟨[]⟩

/-- The Go statement `m[k] = v`: any entry under `k` is replaced. -/
def GoMap.set {V : Type} (m : GoMap V) (k : String) (v : V) : GoMap V :=
  ⟨(k, v) :: m.entries.filter (fun e => decide (e.1 ≠ k))⟩

/-- The Go expression `v, ok := m[k]`. -/
def GoMap.lookup {V : Type} (m : GoMap V) (k : String) : Option V :=
  (m.entries.find? (fun e => decide (e.1 = k))).map Prod.snd

/-- The key set of a map. -/
def GoMap.keys {V : Type} (m : GoMap V) : List String := m.entries.map Prod.fst

/-- The Go expression `vms[k]` on a `map[string]internal.VM`: the zero VM when `k` is absent. -/
def GoMap.get (m : GoMap VM) (k : String) : VM := (m.lookup k).getD VM.zero

/-- One way for `range` to enumerate maps: each map's entries in some order. -/
structure RangeOrder where
  enum : List (String × VM) → List (String × VM)
  perm : ∀ l, (enum l).Perm l

/-- Enumeration in the order the entries are stored in the model. -/
def RangeOrder.stored : RangeOrder := ⟨id, fun l => List.Perm.refl l⟩

/-- Enumeration in the opposite order. -/
def RangeOrder.reversed : RangeOrder := ⟨List.reverse, fun l => List.reverse_perm l⟩

/-! ## The provider -/

/-- Modelled from the spec: the connection details of the backend client; the code reads `Url`. -/
structure Connection where
  Url : String

/-- Modelled from the spec: the `internal.OvirtApi` collaborator, as one snapshot of the backend:
`GetVMs` maps a query string to the VMs and the error the call returns. -/
structure OvirtApi where
  GetVMs : String → List VM × Option GoError
  GetConnectionDetails : Connection

/-- The struct `CloudProvider`. -/
structure CloudProvider where
  VmsQuery : String
  api : OvirtApi

/-- The loops of `extractNodeAddresses`: nics, then devices, then ips, appending one
external address per ip to a slice that starts as `make([]v1.NodeAddress,0)`. -/
def extractNodeAddresses (vm : VM) : Slice NodeAddress :=
  vm.Nics.Nics.foldl
    (fun addresses nics =>
      nics.Devices.Devices.foldl
        (fun addresses dev =>
          dev.Ips.Ips.foldl
            (fun addresses ip =>
              addresses.append ⟨ip.Address, NodeAddressType.NodeExternalIP⟩)
            addresses)
        addresses)
    Slice.make0

/-- The method `getVms`: the by-name index of what `GetVMs` returned, and its error. -/
def CloudProvider.getVms (p : CloudProvider) : GoMap VM × Option GoError :=
  let r := p.api.GetVMs p.VmsQuery
  let vms := r.1
  let err := r.2
  let vmsMap := vms.foldl (fun m v => m.set v.Name v) GoMap.make
  (vmsMap, err)

/-- The method `NodeAddresses`. -/
def CloudProvider.NodeAddresses (p : CloudProvider) (name : String) :
    Slice NodeAddress × Option GoError :=
  let r := p.getVms
  let vms := r.1
  let err := r.2
  if err ≠ none then (Slice.nil, err)
  else
    let vm := vms.get name
    if vm.Id = "" then
      (Slice.nil, some (GoError.errorf
        ("VM by the name " ++ name ++ " does not exist." ++
          " The VM may have been removed, or the search query criteria needs correction")))
    else
      let addresses := extractNodeAddresses vm
      (addresses, none)

/-- The method `InstanceID`. -/
def CloudProvider.InstanceID (p : CloudProvider) (nodeName : String) : String × Option GoError :=
  let r := p.getVms
  let vms := r.1
  let err := r.2
  ((vms.get nodeName).Id, err)

/-- The method `ExternalID`; the body of its `if` is empty. -/
def CloudProvider.ExternalID (p : CloudProvider) (nodeName : String) : String × Option GoError :=
  let r := p.getVms
  let vms := r.1
  ((vms.get nodeName).Id, none)

/-- The loop of `InstanceExistsByProviderID` over one enumeration of the index, with the
`return` that follows it. -/
def existsLoop (providerID : String) : List (String × VM) → Bool × Option GoError
  | [] => (false, some (GoError.errorf ("there is no instance with ID " ++ providerID)))
  | (_, v) :: rest =>
    if v.Id = providerID then
      if v.Status = "down" then (false, none) else (true, none)
    else existsLoop providerID rest

/-- The method `InstanceExistsByProviderID`; the body of its `if err != nil` is empty. -/
def CloudProvider.InstanceExistsByProviderID (p : CloudProvider) (providerID : String)
    (ρ : RangeOrder) : Bool × Option GoError :=
  let r := p.getVms
  let vms := r.1
  existsLoop providerID (ρ.enum vms.entries)

/-! ## Construction and the declined capabilities -/

/-- The constant `DefaultVMSearchQuery`. -/
def DefaultVMSearchQuery : String := "vms?follow=nics&search="

/-- The anonymous struct held by `ProviderConfig.Filters`. -/
structure Filters where
  VmsQuery : String

/-- The struct `ProviderConfig`. -/
structure ProviderConfig where
  Filters : Filters

/-- The function `NewOvirtProvider`. Its `providerConfig` pointer is taken to point at a
configuration, as it does at the one call in the file (`&providerConfig` in `init`). The
pointer result is `none` for `nil`. -/
def NewOvirtProvider (providerConfig : ProviderConfig) (ovirtApi : OvirtApi) :
    Option CloudProvider × Option GoError :=
  if ovirtApi.GetConnectionDetails.Url = "" then
    (none, some (GoError.errorf "oVirt engine url is empty"))
  else
    let vmsQuery := DefaultVMSearchQuery ++ providerConfig.Filters.VmsQuery
    (some ⟨vmsQuery, ovirtApi⟩, none)

/-- The method `LoadBalancer`; an interface value is `none` for `nil`, or the provider. -/
def CloudProvider.LoadBalancer (_p : CloudProvider) : Option CloudProvider × Bool :=
  (none, false)

/-- The method `Instances`. -/
def CloudProvider.Instances (p : CloudProvider) : Option CloudProvider × Bool :=
  (some p, true)

/-- The method `Zones`. -/
def CloudProvider.Zones (_p : CloudProvider) : Option CloudProvider × Bool :=
  (none, false)

/-- The method `Clusters`. -/
def CloudProvider.Clusters (_p : CloudProvider) : Option CloudProvider × Bool :=
  (none, false)

/-- The method `Routes`. -/
def CloudProvider.Routes (_p : CloudProvider) : Option CloudProvider × Bool :=
  (none, false)

/-- The method `ScrubDNS`. -/
def CloudProvider.ScrubDNS (_p : CloudProvider) (_nameservers _searches : Slice String) :
    Slice String × Slice String :=
  (Slice.nil, Slice.nil)

/-- The method `AddSSHKeyToAllInstances`; the bytes of `keyData` are numbers. -/
def CloudProvider.AddSSHKeyToAllInstances (_p : CloudProvider) (_user : String)
    (_keyData : Slice Nat) : Option GoError :=
  some (GoError.errorf "NotImplemented")

/-! ## Reference notions the statements are phrased with -/

/-- The last VM, in list order, that carries the name. -/
def lastNamed (vms : List VM) (name : String) : Option VM :=
  (vms.filter (fun v => decide (v.Name = name))).getLast?

/-- The addresses of a VM read off its nested data: for each nic in order, for each of its
devices in order, for each of its ips in order, the ip's address tagged external. -/
def flattenAddresses (vm : VM) : List NodeAddress :=
  (vm.Nics.Nics.map (fun nic =>
    (nic.Devices.Devices.map (fun dev =>
      dev.Ips.Ips.map (fun ip =>
        NodeAddress.mk ip.Address NodeAddressType.NodeExternalIP))).flatten)).flatten

/-- A provider whose backend returns the given VMs and error for every query. -/
def providerOf (vms : List VM) (err : Option GoError) : CloudProvider :=
  ⟨"vms?follow=nics&search=", ⟨fun _ => (vms, err), ⟨"https://engine/ovirt-engine/api"⟩⟩⟩

/-- The VM of the spec's scenario: `node1`, id `vm-1`, one address. -/
def node1 (status : String) : VM :=
  ⟨"vm-1", "node1", status, ⟨[⟨⟨[⟨⟨[⟨"10.0.0.5"⟩]⟩⟩]⟩⟩]⟩⟩

/-- A VM named `node1` whose identifier is the empty string, with one address. -/
def vmNoId : VM :=
  ⟨"", "node1", "up", ⟨[⟨⟨[⟨⟨[⟨"10.0.0.5"⟩]⟩⟩]⟩⟩]⟩⟩

/-- A VM with no network data. -/
def bare (id name status : String) : VM := ⟨id, name, status, ⟨[]⟩⟩

/-- A scan of the raw collection, in list order, for the first VM with the identifier,
classified as `InstanceExistsByProviderID` classifies a match. -/
def linearScan (providerID : String) : List VM → Bool × Option GoError
  | [] => (false, some (GoError.errorf ("there is no instance with ID " ++ providerID)))
  | v :: rest =>
    if v.Id = providerID then (decide (v.Status ≠ "down"), none)
    else linearScan providerID rest

/-- A VM with the given nics. -/
def withNics (id name status : String) (nics : List Nic) : VM := ⟨id, name, status, ⟨nics⟩⟩

/-- A backend that answers every query with no VM and an error naming the query it was asked. -/
def echoApi (url : String) : OvirtApi :=
  ⟨fun q => ([], some (GoError.backend q)), ⟨url⟩⟩

/-! ## The address walk -/

theorem foldl_ips (ips : List Ip) (acc : List NodeAddress) :
    ips.foldl (fun addresses ip =>
        Slice.append addresses ⟨ip.Address, NodeAddressType.NodeExternalIP⟩) (Slice.of acc)
      = Slice.of (acc ++ ips.map (fun ip =>
          NodeAddress.mk ip.Address NodeAddressType.NodeExternalIP)) := by
  induction ips generalizing acc with
  | nil => simp
  | cons ip rest ih =>
    rw [List.foldl_cons]
    show List.foldl _ (Slice.of (acc ++ [_])) rest = _
    rw [ih]
    simp

theorem foldl_devices (devs : List Device) (acc : List NodeAddress) :
    devs.foldl (fun addresses dev =>
        dev.Ips.Ips.foldl (fun addresses ip =>
          Slice.append addresses ⟨ip.Address, NodeAddressType.NodeExternalIP⟩) addresses)
        (Slice.of acc)
      = Slice.of (acc ++ (devs.map (fun dev => dev.Ips.Ips.map (fun ip =>
          NodeAddress.mk ip.Address NodeAddressType.NodeExternalIP))).flatten) := by
  induction devs generalizing acc with
  | nil => simp
  | cons dev rest ih => simp [foldl_ips, ih]

theorem foldl_nics (nics : List Nic) (acc : List NodeAddress) :
    nics.foldl (fun addresses nics =>
        nics.Devices.Devices.foldl (fun addresses dev =>
          dev.Ips.Ips.foldl (fun addresses ip =>
            Slice.append addresses ⟨ip.Address, NodeAddressType.NodeExternalIP⟩) addresses)
          addresses)
        (Slice.of acc)
      = Slice.of (acc ++ (nics.map (fun nic =>
          (nic.Devices.Devices.map (fun dev => dev.Ips.Ips.map (fun ip =>
            NodeAddress.mk ip.Address NodeAddressType.NodeExternalIP))).flatten)).flatten) := by
  induction nics generalizing acc with
  | nil => simp
  | cons nic rest ih => simp [foldl_devices, ih]

theorem extractNodeAddresses_eq (vm : VM) :
    extractNodeAddresses vm = Slice.of (flattenAddresses vm) := by
  unfold extractNodeAddresses flattenAddresses Slice.make0
  rw [foldl_nics]
  simp

/-! ## The by-name index -/

theorem find_filter_ne {V : Type} (l : List (String × V)) (k k' : String) (h : k' ≠ k) :
    (l.filter (fun e => decide (e.1 ≠ k))).find? (fun e => decide (e.1 = k'))
      = l.find? (fun e => decide (e.1 = k')) := by
  induction l with
  | nil => rfl
  | cons e rest ih =>
    by_cases hk : e.1 = k
    · have hne : ¬ e.1 = k' := fun h2 => h (h2.symm.trans hk)
      rw [List.filter_cons_of_neg (by simpa using hk),
        List.find?_cons_of_neg _ (by simpa using hne)]
      exact ih
    · rw [List.filter_cons_of_pos (by simpa using hk)]
      by_cases hk2 : e.1 = k'
      · rw [List.find?_cons_of_pos _ (by simpa using hk2),
          List.find?_cons_of_pos _ (by simpa using hk2)]
      · rw [List.find?_cons_of_neg _ (by simpa using hk2),
          List.find?_cons_of_neg _ (by simpa using hk2)]
        exact ih

theorem GoMap.lookup_set {V : Type} (m : GoMap V) (k k' : String) (v : V) :
    (m.set k v).lookup k' = if k' = k then some v else m.lookup k' := by
  unfold GoMap.lookup GoMap.set
  by_cases h : k' = k
  · subst h; simp
  · have h2 : ¬ k = k' := fun e => h e.symm
    simp only [List.find?_cons, h, h2, decide_False, if_false]
    rw [find_filter_ne _ _ _ h]

theorem lastNamed_append_single (vms : List VM) (v : VM) (name : String) :
    lastNamed (vms ++ [v]) name = if name = v.Name then some v else lastNamed vms name := by
  unfold lastNamed
  by_cases h : name = v.Name
  · subst h; simp [List.filter_append, List.filter_cons]
  · have h2 : ¬ v.Name = name := fun e => h e.symm
    simp [List.filter_append, List.filter_cons, h, h2]

theorem lookup_index (vms : List VM) (name : String) :
    (vms.foldl (fun m v => m.set v.Name v) GoMap.make).lookup name = lastNamed vms name := by
  induction vms using List.reverseRecOn with
  | nil => rfl
  | append_singleton init v ih =>
    rw [List.foldl_append, lastNamed_append_single]
    simp only [List.foldl_cons, List.foldl_nil]
    rw [GoMap.lookup_set, ih]

theorem GoMap.keys_set_nodup {V : Type} (m : GoMap V) (k : String) (v : V)
    (h : m.keys.Nodup) : (m.set k v).keys.Nodup := by
  unfold GoMap.keys GoMap.set at *
  simp only [List.map_cons, List.nodup_cons]
  constructor
  · intro hmem
    obtain ⟨e, he, hek⟩ := List.mem_map.1 hmem
    have := (List.mem_filter.1 he).2
    simp at this
    exact this hek
  · exact List.Nodup.sublist (List.Sublist.map _ (List.filter_sublist _)) h

theorem keys_index_nodup (vms : List VM) :
    (vms.foldl (fun m v => m.set v.Name v) GoMap.make).keys.Nodup := by
  induction vms using List.reverseRecOn with
  | nil => simp [GoMap.keys, GoMap.make]
  | append_singleton init v ih =>
    rw [List.foldl_append]
    simp only [List.foldl_cons, List.foldl_nil]
    exact GoMap.keys_set_nodup _ _ _ ih

theorem mem_iff_find_of_nodup {V : Type} (l : List (String × V))
    (h : (l.map Prod.fst).Nodup) (k : String) (v : V) :
    (k, v) ∈ l ↔ (l.find? (fun e => decide (e.1 = k))).map Prod.snd = some v := by
  induction l with
  | nil => simp
  | cons e rest ih =>
    obtain ⟨a, b⟩ := e
    simp only [List.map_cons, List.nodup_cons] at h
    by_cases hk : a = k
    · subst hk
      rw [List.find?_cons_of_pos _ (by simp)]
      simp only [List.mem_cons, Prod.mk.injEq, true_and, Option.map_some', Option.some.injEq]
      constructor
      · rintro (h1 | h1)
        · exact h1.symm
        · exact absurd (List.mem_map.2 ⟨(a, v), h1, rfl⟩) h.1
      · intro h1
        exact Or.inl h1.symm
    · rw [List.find?_cons_of_neg _ (by simpa using hk), ← ih h.2]
      have hk2 : ¬ k = a := fun e => hk e.symm
      simp [hk2]

theorem mem_index_iff (vms : List VM) (k : String) (v : VM) :
    (k, v) ∈ (vms.foldl (fun m v => m.set v.Name v) GoMap.make).entries
      ↔ lastNamed vms k = some v := by
  rw [mem_iff_find_of_nodup _ (keys_index_nodup vms), ← lookup_index]
  rfl

theorem lastNamed_some (vms : List VM) (name : String) (v : VM)
    (h : lastNamed vms name = some v) : v ∈ vms ∧ v.Name = name := by
  have := List.mem_filter.1 (List.mem_of_getLast?_eq_some h)
  exact ⟨this.1, by simpa using this.2⟩

theorem lastNamed_eq_none (vms : List VM) (name : String) :
    lastNamed vms name = none ↔ ∀ v ∈ vms, v.Name ≠ name := by
  unfold lastNamed
  rw [List.getLast?_eq_none_iff, List.filter_eq_nil_iff]
  simp

theorem lastNamed_of_filter_single (vms : List VM) (name : String) (vm : VM)
    (h : vms.filter (fun v => decide (v.Name = name)) = [vm]) :
    lastNamed vms name = some vm := by
  unfold lastNamed
  rw [h]
  rfl

/-! ## The existence loop -/

theorem existsLoop_no_match (providerID : String) (l : List (String × VM))
    (h : ∀ e ∈ l, e.2.Id ≠ providerID) :
    existsLoop providerID l
      = (false, some (GoError.errorf ("there is no instance with ID " ++ providerID))) := by
  induction l with
  | nil => rfl
  | cons e rest ih =>
    obtain ⟨k, v⟩ := e
    have hv : ¬ v.Id = providerID := h (k, v) (List.mem_cons_self _ _)
    simp only [existsLoop, hv, if_false]
    exact ih (fun e he => h e (List.mem_cons_of_mem _ he))

theorem existsLoop_verdict (providerID : String) (l : List (String × VM)) :
    (∃ e ∈ l, e.2.Id = providerID ∧
        existsLoop providerID l = (decide (e.2.Status ≠ "down"), none))
      ∨ ((∀ e ∈ l, e.2.Id ≠ providerID) ∧ existsLoop providerID l
          = (false, some (GoError.errorf ("there is no instance with ID " ++ providerID)))) := by
  induction l with
  | nil => exact Or.inr ⟨by simp, rfl⟩
  | cons e rest ih =>
    obtain ⟨k, v⟩ := e
    by_cases hv : v.Id = providerID
    · refine Or.inl ⟨(k, v), List.mem_cons_self _ _, hv, ?_⟩
      by_cases hs : v.Status = "down" <;> simp [existsLoop, hv, hs]
    · rcases ih with ⟨e, he, hid, hr⟩ | ⟨hall, hr⟩
      · refine Or.inl ⟨e, List.mem_cons_of_mem _ he, hid, ?_⟩
        simp only [existsLoop, hv, if_false]
        exact hr
      · refine Or.inr ⟨?_, ?_⟩
        · intro e he
          rcases List.mem_cons.1 he with rfl | he
          · exact hv
          · exact hall e he
        · simp only [existsLoop, hv, if_false]
          exact hr

theorem mem_range_iff (p : CloudProvider) (ρ : RangeOrder) (e : String × VM) :
    e ∈ ρ.enum p.getVms.1.entries ↔ lastNamed (p.api.GetVMs p.VmsQuery).1 e.1 = some e.2 := by
  rw [(ρ.perm _).mem_iff]
  exact mem_index_iff _ e.1 e.2

theorem instanceExists_cases (p : CloudProvider) (providerID : String) (ρ : RangeOrder) :
    (∃ v, lastNamed (p.api.GetVMs p.VmsQuery).1 v.Name = some v ∧ v.Id = providerID ∧
        p.InstanceExistsByProviderID providerID ρ = (decide (v.Status ≠ "down"), none))
      ∨ ((∀ v, lastNamed (p.api.GetVMs p.VmsQuery).1 v.Name = some v → v.Id ≠ providerID) ∧
          p.InstanceExistsByProviderID providerID ρ
            = (false, some (GoError.errorf ("there is no instance with ID " ++ providerID)))) := by
  rcases existsLoop_verdict providerID (ρ.enum p.getVms.1.entries) with
    ⟨e, he, hid, hr⟩ | ⟨hall, hr⟩
  · have hl := (mem_range_iff p ρ e).1 he
    have hn := (lastNamed_some _ _ _ hl).2
    exact Or.inl ⟨e.2, by rw [hn]; exact hl, hid, hr⟩
  · refine Or.inr ⟨?_, hr⟩
    intro v hv
    exact hall (v.Name, v) ((mem_range_iff p ρ (v.Name, v)).2 hv)

theorem nodeAddresses_of_indexed (p : CloudProvider) (name : String) (vm : VM)
    (herr : (p.api.GetVMs p.VmsQuery).2 = none)
    (hvm : lastNamed (p.api.GetVMs p.VmsQuery).1 name = some vm) (hid : vm.Id ≠ "") :
    p.NodeAddresses name = (Slice.of (flattenAddresses vm), none) := by
  have hget : p.getVms.1.get name = vm := by
    unfold GoMap.get
    rw [show p.getVms.1.lookup name = _ from lookup_index _ name, hvm]
    rfl
  have herr2 : p.getVms.2 = none := herr
  unfold CloudProvider.NodeAddresses
  simp only [herr2, hget, ne_eq, not_true_eq_false, if_false, hid, extractNodeAddresses_eq]

theorem nodeAddresses_of_absent (p : CloudProvider) (name : String)
    (herr : (p.api.GetVMs p.VmsQuery).2 = none)
    (hvm : lastNamed (p.api.GetVMs p.VmsQuery).1 name = none) :
    p.NodeAddresses name = (Slice.nil, some (GoError.errorf
        ("VM by the name " ++ name ++ " does not exist." ++
          " The VM may have been removed, or the search query criteria needs correction"))) := by
  have hget : p.getVms.1.get name = VM.zero := by
    unfold GoMap.get
    rw [show p.getVms.1.lookup name = _ from lookup_index _ name, hvm]
    rfl
  have herr2 : p.getVms.2 = none := herr
  have hz : VM.zero.Id = "" := rfl
  unfold CloudProvider.NodeAddresses
  simp only [herr2, hget, ne_eq, not_true_eq_false, if_false, hz, if_true]

theorem length_flattenAddresses (vm : VM) :
    (flattenAddresses vm).length
      = (vm.Nics.Nics.map (fun nic =>
          (nic.Devices.Devices.map (fun dev => dev.Ips.Ips.length)).sum)).sum := by
  unfold flattenAddresses
  simp only [List.length_flatten, List.map_map]
  congr 1
  apply List.map_congr_left
  intro nic _
  simp only [Function.comp, List.length_flatten, List.map_map]
  congr 1
  apply List.map_congr_left
  intro dev _
  simp only [Function.comp, List.length_map]

theorem nodeAddresses_of_fetch_error (p : CloudProvider) (name : String) (e : GoError)
    (he : (p.api.GetVMs p.VmsQuery).2 = some e) :
    p.NodeAddresses name = (Slice.nil, some e) := by
  have he2 : p.getVms.2 = some e := he
  unfold CloudProvider.NodeAddresses
  simp [he2]

theorem nodeAddresses_of_empty_id (p : CloudProvider) (name : String) (vm : VM)
    (herr : (p.api.GetVMs p.VmsQuery).2 = none)
    (hvm : lastNamed (p.api.GetVMs p.VmsQuery).1 name = some vm) (hid : vm.Id = "") :
    p.NodeAddresses name = (Slice.nil, some (GoError.errorf
        ("VM by the name " ++ name ++ " does not exist." ++
          " The VM may have been removed, or the search query criteria needs correction"))) := by
  have hget : p.getVms.1.get name = vm := by
    unfold GoMap.get
    rw [show p.getVms.1.lookup name = _ from lookup_index _ name, hvm]
    rfl
  have herr2 : p.getVms.2 = none := herr
  unfold CloudProvider.NodeAddresses
  simp only [herr2, hget, ne_eq, not_true_eq_false, if_false, hid, if_true]

theorem instanceID_eq (p : CloudProvider) (nodeName : String) :
    p.InstanceID nodeName
      = (((lastNamed (p.api.GetVMs p.VmsQuery).1 nodeName).map VM.Id).getD "",
          (p.api.GetVMs p.VmsQuery).2) := by
  show (((p.getVms.1.lookup nodeName).getD VM.zero).Id, p.getVms.2) = _
  rw [show p.getVms.1.lookup nodeName = _ from lookup_index _ nodeName]
  cases lastNamed (p.api.GetVMs p.VmsQuery).1 nodeName <;> rfl

theorem lastNamed_split (vms : List VM) (name : String) (v : VM)
    (h : lastNamed vms name = some v) :
    ∃ pre post, vms = pre ++ v :: post ∧ ∀ w ∈ post, w.Name ≠ name := by
  induction vms using List.reverseRecOn with
  | nil => simp [lastNamed] at h
  | append_singleton init x ih =>
    rw [lastNamed_append_single] at h
    by_cases hn : name = x.Name
    · rw [if_pos hn] at h
      have hx : x = v := Option.some.inj h
      subst hx
      exact ⟨init, [], rfl, by simp⟩
    · rw [if_neg hn] at h
      obtain ⟨pre, post, hsplit, hpost⟩ := ih h
      refine ⟨pre, post ++ [x], by rw [hsplit]; simp, ?_⟩
      intro w hw
      rcases List.mem_append.1 hw with hw | hw
      · exact hpost w hw
      · have hwx : w = x := by simpa using hw
        rw [hwx]
        exact fun e => hn e.symm

theorem lastNamed_of_nodup (vms : List VM) (h : (vms.map VM.Name).Nodup) (v : VM)
    (hv : v ∈ vms) : lastNamed vms v.Name = some v := by
  induction vms using List.reverseRecOn with
  | nil => simp at hv
  | append_singleton init x ih =>
    rw [List.map_append, List.nodup_append] at h
    obtain ⟨hinit, _, hdisj⟩ := h
    rw [lastNamed_append_single]
    rcases List.mem_append.1 hv with hv | hv
    · have hne : ¬ v.Name = x.Name := by
        intro e
        exact hdisj (List.mem_map.2 ⟨v, hv, rfl⟩) (by rw [e]; simp)
      rw [if_neg hne]
      exact ih hinit hv
    · have hvx : v = x := by simpa using hv
      rw [hvx, if_pos rfl]

theorem linearScan_cases (providerID : String) (l : List VM) :
    (∃ v ∈ l, v.Id = providerID ∧
        linearScan providerID l = (decide (v.Status ≠ "down"), none))
      ∨ ((∀ v ∈ l, v.Id ≠ providerID) ∧ linearScan providerID l
          = (false, some (GoError.errorf ("there is no instance with ID " ++ providerID)))) := by
  induction l with
  | nil => exact Or.inr ⟨by simp, rfl⟩
  | cons v rest ih =>
    by_cases hv : v.Id = providerID
    · refine Or.inl ⟨v, List.mem_cons_self _ _, hv, ?_⟩
      simp only [linearScan, hv, if_true]
    · rcases ih with ⟨w, hw, hid, hr⟩ | ⟨hall, hr⟩
      · refine Or.inl ⟨w, List.mem_cons_of_mem _ hw, hid, ?_⟩
        simp only [linearScan, hv, if_false]
        exact hr
      · refine Or.inr ⟨?_, ?_⟩
        · intro w hw
          rcases List.mem_cons.1 hw with rfl | hw
          · exact hv
          · exact hall w hw
        · simp only [linearScan, hv, if_false]
          exact hr

/-! ## The claims -/

/-- C1, as stated, fails: a fetched collection whose only VM named `node1` has the empty
identifier makes `NodeAddresses` return the not-found error instead of that VM's addresses. -/
theorem nodeAddresses_empty_id_counterexample :
    (providerOf [vmNoId] none).api.GetVMs (providerOf [vmNoId] none).VmsQuery = ([vmNoId], none)
      ∧ [vmNoId].filter (fun v => decide (v.Name = "node1")) = [vmNoId]
      ∧ (providerOf [vmNoId] none).NodeAddresses "node1"
          ≠ (Slice.of (flattenAddresses vmNoId), none)
      ∧ (providerOf [vmNoId] none).NodeAddresses "node1"
          = (Slice.nil, some (GoError.errorf
              ("VM by the name node1 does not exist." ++
                " The VM may have been removed, or the search query criteria needs correction"))) := by
  decide

/-- C1, amended: after a successful fetch, when exactly one VM of the collection has the name
and that VM's identifier is not the empty string, `NodeAddresses` succeeds with the addresses
of that VM's nics, then devices, then ips, in order, each tagged external, none dropped,
none added. -/
theorem nodeAddresses_unique_name (p : CloudProvider) (name : String) (vms : List VM) (vm : VM)
    (hfetch : p.api.GetVMs p.VmsQuery = (vms, none))
    (huniq : vms.filter (fun v => decide (v.Name = name)) = [vm])
    (hid : vm.Id ≠ "") :
    p.NodeAddresses name = (Slice.of (flattenAddresses vm), none)
      ∧ (flattenAddresses vm).length
          = (vm.Nics.Nics.map (fun nic =>
              (nic.Devices.Devices.map (fun dev => dev.Ips.Ips.length)).sum)).sum := by
  refine ⟨?_, length_flattenAddresses vm⟩
  apply nodeAddresses_of_indexed p name vm
  · rw [hfetch]
  · rw [hfetch]
    exact lastNamed_of_filter_single vms name vm huniq
  · exact hid

/-- C1, amended, at the spec's scenario: `node1` resolves to its one address. -/
theorem nodeAddresses_unique_name_witness :
    (providerOf [node1 "up"] none).NodeAddresses "node1"
        = (Slice.of [⟨"10.0.0.5", NodeAddressType.NodeExternalIP⟩], none)
      ∧ (flattenAddresses (node1 "up")).length = 1 :=
  nodeAddresses_unique_name (providerOf [node1 "up"] none) "node1" [node1 "up"] (node1 "up")
    rfl (by decide) (by decide)

/-- C2, as stated, fails in two ways. A down VM whose name is carried by a later VM is not in
the index, so its identifier is reported as not found; and when two indexed VMs share the
identifier and only one is down, an enumeration that meets the other one first answers
`(true, nil)`. -/
theorem instanceExists_down_counterexample :
    ((∃ v ∈ [bare "vm-1" "node1" "down", bare "vm-2" "node1" "up"],
          v.Id = "vm-1" ∧ v.Status = "down")
        ∧ (providerOf [bare "vm-1" "node1" "down", bare "vm-2" "node1" "up"]
              none).InstanceExistsByProviderID "vm-1" RangeOrder.stored
            = (false, some (GoError.errorf "there is no instance with ID vm-1")))
      ∧ ((∃ v ∈ [bare "vm-1" "node1" "down", bare "vm-1" "node2" "up"],
          v.Id = "vm-1" ∧ v.Status = "down")
        ∧ (providerOf [bare "vm-1" "node1" "down", bare "vm-1" "node2" "up"]
              none).InstanceExistsByProviderID "vm-1" RangeOrder.stored
            = (true, none)) := by
  decide

/-- C2, amended: after a successful fetch, when some VM held by the by-name index (the last
VM of the collection carrying its name) has the identifier, and every VM held by the index
with that identifier has status `down`, `InstanceExistsByProviderID` returns `(false, nil)`,
in whatever order the index is enumerated. -/
theorem instanceExists_down (p : CloudProvider) (providerID : String) (ρ : RangeOrder)
    (vms : List VM) (hfetch : p.api.GetVMs p.VmsQuery = (vms, none))
    (hsome : ∃ v, lastNamed vms v.Name = some v ∧ v.Id = providerID)
    (hdown : ∀ v, lastNamed vms v.Name = some v → v.Id = providerID → v.Status = "down") :
    p.InstanceExistsByProviderID providerID ρ = (false, none) := by
  have hv : (p.api.GetVMs p.VmsQuery).1 = vms := by rw [hfetch]
  rcases instanceExists_cases p providerID ρ with ⟨v, hl, hid, hr⟩ | ⟨hall, _⟩
  · rw [hv] at hl
    rw [hr]
    simp [hdown v hl hid]
  · obtain ⟨v, hl, hid⟩ := hsome
    rw [hv] at hall
    exact absurd hid (hall v hl)

/-- C2, amended, at the spec's scenario with status `down`. -/
theorem instanceExists_down_witness :
    (providerOf [node1 "down"] none).InstanceExistsByProviderID "vm-1" RangeOrder.reversed
      = (false, none) :=
  instanceExists_down (providerOf [node1 "down"] none) "vm-1" RangeOrder.reversed
    [node1 "down"] rfl ⟨node1 "down", by decide, by decide⟩
    (by
      intro v hl _
      have h := (lastNamed_some _ _ _ hl).1
      simp only [List.mem_singleton] at h
      subst h
      rfl)

/-- C3, as stated, fails in two ways. A running VM whose name is carried by a later VM is not
in the index, so its identifier is reported as not found; and when two indexed VMs share the
identifier and one of them is down, an enumeration that meets the down one first answers
`(false, nil)`. -/
theorem instanceExists_running_counterexample :
    ((∃ v ∈ [bare "vm-1" "node1" "up", bare "vm-2" "node1" "up"],
          v.Id = "vm-1" ∧ v.Status ≠ "down")
        ∧ (providerOf [bare "vm-1" "node1" "up", bare "vm-2" "node1" "up"]
              none).InstanceExistsByProviderID "vm-1" RangeOrder.stored
            = (false, some (GoError.errorf "there is no instance with ID vm-1")))
      ∧ ((∃ v ∈ [bare "vm-1" "node1" "up", bare "vm-1" "node2" "down"],
          v.Id = "vm-1" ∧ v.Status ≠ "down")
        ∧ (providerOf [bare "vm-1" "node1" "up", bare "vm-1" "node2" "down"]
              none).InstanceExistsByProviderID "vm-1" RangeOrder.stored
            = (false, none)) := by
  decide

/-- C3, amended: after a successful fetch, when some VM held by the by-name index (the last
VM of the collection carrying its name) has the identifier, and every VM held by the index
with that identifier has a status other than `down`, `InstanceExistsByProviderID` returns
`(true, nil)`, in whatever order the index is enumerated. -/
theorem instanceExists_running (p : CloudProvider) (providerID : String) (ρ : RangeOrder)
    (vms : List VM) (hfetch : p.api.GetVMs p.VmsQuery = (vms, none))
    (hsome : ∃ v, lastNamed vms v.Name = some v ∧ v.Id = providerID)
    (hup : ∀ v, lastNamed vms v.Name = some v → v.Id = providerID → v.Status ≠ "down") :
    p.InstanceExistsByProviderID providerID ρ = (true, none) := by
  have hv : (p.api.GetVMs p.VmsQuery).1 = vms := by rw [hfetch]
  rcases instanceExists_cases p providerID ρ with ⟨v, hl, hid, hr⟩ | ⟨hall, _⟩
  · rw [hv] at hl
    rw [hr]
    simp [hup v hl hid]
  · obtain ⟨v, hl, hid⟩ := hsome
    rw [hv] at hall
    exact absurd hid (hall v hl)

/-- C3, amended, at a VM whose status is the empty string. -/
theorem instanceExists_running_witness :
    (providerOf [node1 ""] none).InstanceExistsByProviderID "vm-1" RangeOrder.stored
      = (true, none) :=
  instanceExists_running (providerOf [node1 ""] none) "vm-1" RangeOrder.stored
    [node1 ""] rfl ⟨node1 "", by decide, by decide⟩
    (by
      intro v hl _
      have h := (lastNamed_some _ _ _ hl).1
      simp only [List.mem_singleton] at h
      subst h
      decide)

/-- C4: an identifier carried by no VM of a successfully fetched collection gets `false` with
the not-found error, in whatever order the index is enumerated; and on every backend result
the answer `(false, nil)` is given only when the returned collection holds a VM with that
identifier (one whose status is `down`). -/
theorem instanceExists_not_found (p : CloudProvider) (providerID : String) (ρ : RangeOrder) :
    ((p.api.GetVMs p.VmsQuery).2 = none →
        (∀ v ∈ (p.api.GetVMs p.VmsQuery).1, v.Id ≠ providerID) →
        p.InstanceExistsByProviderID providerID ρ
          = (false, some (GoError.errorf ("there is no instance with ID " ++ providerID))))
      ∧ (p.InstanceExistsByProviderID providerID ρ = (false, none) →
          ∃ v ∈ (p.api.GetVMs p.VmsQuery).1, v.Id = providerID ∧ v.Status = "down") := by
  constructor
  · intro _ habs
    rcases instanceExists_cases p providerID ρ with ⟨v, hl, hid, _⟩ | ⟨_, hr⟩
    · exact absurd hid (habs v (lastNamed_some _ _ _ hl).1)
    · exact hr
  · intro hres
    rcases instanceExists_cases p providerID ρ with ⟨v, hl, hid, hr⟩ | ⟨_, hr⟩
    · refine ⟨v, (lastNamed_some _ _ _ hl).1, hid, ?_⟩
      rw [hr] at hres
      by_contra hs
      simp [hs] at hres
    · rw [hr] at hres
      simp at hres

/-- C4 at the spec's scenario: `vm-2` is not found, and the `(false, nil)` given for a down
`vm-1` comes with a VM of that identifier in the collection. -/
theorem instanceExists_not_found_witness :
    (providerOf [node1 "up"] none).InstanceExistsByProviderID "vm-2" RangeOrder.stored
        = (false, some (GoError.errorf "there is no instance with ID vm-2"))
      ∧ ∃ v ∈ [node1 "down"], v.Id = "vm-1" ∧ v.Status = "down" :=
  ⟨(instanceExists_not_found (providerOf [node1 "up"] none) "vm-2" RangeOrder.stored).1
      rfl (by decide),
   (instanceExists_not_found (providerOf [node1 "down"] none) "vm-1" RangeOrder.stored).2
      (by decide)⟩

/-- C5: after a successful fetch, a name carried by no VM of the collection makes
`NodeAddresses` return the nil slice and the `VM by the name ... does not exist` error. -/
theorem nodeAddresses_absent_name (p : CloudProvider) (name : String) (vms : List VM)
    (hfetch : p.api.GetVMs p.VmsQuery = (vms, none))
    (habs : ∀ v ∈ vms, v.Name ≠ name) :
    p.NodeAddresses name = (Slice.nil, some (GoError.errorf
        ("VM by the name " ++ name ++ " does not exist." ++
          " The VM may have been removed, or the search query criteria needs correction"))) := by
  apply nodeAddresses_of_absent p name
  · rw [hfetch]
  · rw [hfetch]
    exact (lastNamed_eq_none vms name).2 habs

/-- C5 at the spec's scenario: `node2` is not a name of the collection. -/
theorem nodeAddresses_absent_name_witness :
    (providerOf [node1 "up"] none).NodeAddresses "node2"
      = (Slice.nil, some (GoError.errorf
          ("VM by the name node2 does not exist." ++
            " The VM may have been removed, or the search query criteria needs correction"))) :=
  nodeAddresses_absent_name (providerOf [node1 "up"] none) "node2" [node1 "up"] rfl (by decide)

/-- C6 does not hold of the code: when the backend returns the VM `vm-1` together with an
error, `NodeAddresses` and `InstanceID` hand that error back, but `InstanceExistsByProviderID`
answers `(true, nil)` for `vm-1` and its own not-found error for `vm-2`, under every
enumeration order; the backend's error is lost. -/
theorem instanceExists_drops_fetch_error (ρ : RangeOrder) :
    (providerOf [node1 "up"] (some (GoError.backend "connection refused"))).NodeAddresses "node1"
        = (Slice.nil, some (GoError.backend "connection refused"))
      ∧ (providerOf [node1 "up"] (some (GoError.backend "connection refused"))).InstanceID "node1"
        = ("vm-1", some (GoError.backend "connection refused"))
      ∧ (providerOf [node1 "up"]
            (some (GoError.backend "connection refused"))).InstanceExistsByProviderID "vm-1" ρ
          = (true, none)
      ∧ (providerOf [node1 "up"]
            (some (GoError.backend "connection refused"))).InstanceExistsByProviderID "vm-2" ρ
          = (false, some (GoError.errorf "there is no instance with ID vm-2")) := by
  have hρ : ρ.enum [("node1", node1 "up")] = [("node1", node1 "up")] :=
    List.perm_singleton.1 (ρ.perm _)
  refine ⟨by decide, by decide, ?_, ?_⟩
  · show existsLoop "vm-1" (ρ.enum [("node1", node1 "up")]) = _
    rw [hρ]
    decide
  · show existsLoop "vm-2" (ρ.enum [("node1", node1 "up")]) = _
    rw [hρ]
    decide

/-- C7: `NodeAddresses` returns either the nil slice with an error, or, with a nil error, all
the addresses of the VM the index holds for the name; and when the backend returns an error,
whatever VMs came with it, the result is the nil slice with that error. -/
theorem nodeAddresses_all_or_nothing (p : CloudProvider) (name : String) :
    ((∃ e, p.NodeAddresses name = (Slice.nil, some e))
        ∨ (∃ vm, lastNamed (p.api.GetVMs p.VmsQuery).1 name = some vm
            ∧ p.NodeAddresses name = (Slice.of (flattenAddresses vm), none)))
      ∧ (∀ e, (p.api.GetVMs p.VmsQuery).2 = some e →
          p.NodeAddresses name = (Slice.nil, some e)) := by
  have hfail : ∀ e, (p.api.GetVMs p.VmsQuery).2 = some e →
      p.NodeAddresses name = (Slice.nil, some e) := by
    intro e he
    have he2 : p.getVms.2 = some e := he
    unfold CloudProvider.NodeAddresses
    simp [he2]
  refine ⟨?_, hfail⟩
  cases herr : (p.api.GetVMs p.VmsQuery).2 with
  | some e => exact Or.inl ⟨e, hfail e herr⟩
  | none =>
    cases hvm : lastNamed (p.api.GetVMs p.VmsQuery).1 name with
    | none => exact Or.inl ⟨_, nodeAddresses_of_absent p name herr hvm⟩
    | some vm =>
      by_cases hid : vm.Id = ""
      · left
        have hget : p.getVms.1.get name = vm := by
          unfold GoMap.get
          rw [show p.getVms.1.lookup name = _ from lookup_index _ name, hvm]
          rfl
        have herr2 : p.getVms.2 = none := herr
        refine ⟨GoError.errorf
          ("VM by the name " ++ name ++ " does not exist." ++
            " The VM may have been removed, or the search query criteria needs correction"), ?_⟩
        unfold CloudProvider.NodeAddresses
        simp only [herr2, hget, ne_eq, not_true_eq_false, if_false, hid, if_true]
      · exact Or.inr ⟨vm, rfl, nodeAddresses_of_indexed p name vm herr hvm hid⟩

/-- C7 where the backend returns `node1` together with an error: nothing of `node1` is
returned, only the error. -/
theorem nodeAddresses_all_or_nothing_witness :
    (providerOf [node1 "up"] (some (GoError.backend "timeout"))).NodeAddresses "node1"
      = (Slice.nil, some (GoError.backend "timeout")) :=
  (nodeAddresses_all_or_nothing
    (providerOf [node1 "up"] (some (GoError.backend "timeout"))) "node1").2
    (GoError.backend "timeout") rfl

/-- C8: `InstanceID` returns the backend's error as it is, and as identifier the `Id` of the
last VM of the returned list that carries the name, or the empty string when none does; a
successful fetch with an absent name gives `("", nil)`. -/
theorem instanceID_lookup (p : CloudProvider) (nodeName : String) :
    p.InstanceID nodeName
        = (((lastNamed (p.api.GetVMs p.VmsQuery).1 nodeName).map VM.Id).getD "",
            (p.api.GetVMs p.VmsQuery).2)
      ∧ ((p.api.GetVMs p.VmsQuery).2 = none →
          (∀ v ∈ (p.api.GetVMs p.VmsQuery).1, v.Name ≠ nodeName) →
          p.InstanceID nodeName = ("", none)) := by
  have hmain : p.InstanceID nodeName
      = (((lastNamed (p.api.GetVMs p.VmsQuery).1 nodeName).map VM.Id).getD "",
          (p.api.GetVMs p.VmsQuery).2) := by
    show (((p.getVms.1.lookup nodeName).getD VM.zero).Id, p.getVms.2) = _
    rw [show p.getVms.1.lookup nodeName = _ from lookup_index _ nodeName]
    cases lastNamed (p.api.GetVMs p.VmsQuery).1 nodeName <;> rfl
  refine ⟨hmain, ?_⟩
  intro herr habs
  rw [hmain, herr, (lastNamed_eq_none _ _).2 habs]
  rfl

/-- C8 at the spec's scenario: `node2` is absent, so the identifier is empty and the error nil. -/
theorem instanceID_lookup_witness :
    (providerOf [node1 "up"] none).InstanceID "node2" = ("", none) :=
  (instanceID_lookup (providerOf [node1 "up"] none) "node2").2 rfl (by decide)

/-- C9 does not hold of the code: `ExternalID` returns a nil error on every input. For a name
absent from a successfully fetched collection it returns `("", nil)`, and after a failed
fetch it returns whatever identifier the returned VMs give, again with a nil error. -/
theorem externalID_never_fails (p : CloudProvider) (nodeName : String) :
    (p.ExternalID nodeName).2 = none
      ∧ (providerOf [node1 "up"] none).ExternalID "node2" = ("", none)
      ∧ (providerOf [] (some (GoError.backend "connection refused"))).ExternalID "node1"
          = ("", none)
      ∧ (providerOf [node1 "up"] (some (GoError.backend "connection refused"))).ExternalID "node1"
          = ("vm-1", none) :=
  ⟨rfl, by decide, by decide, by decide⟩

/-- C10: the index built by `getVms` has one key per name occurring in the list and no other,
maps each name to the last VM of the list that carries it, is the same map for any other list
with the same last VM under every name (so for any reordering that keeps them), and comes
with the backend's error unchanged. -/
theorem getVms_index (p : CloudProvider) :
    p.getVms.2 = (p.api.GetVMs p.VmsQuery).2
      ∧ p.getVms.1.keys.Nodup
      ∧ (∀ name, name ∈ p.getVms.1.keys ↔ ∃ v ∈ (p.api.GetVMs p.VmsQuery).1, v.Name = name)
      ∧ (∀ name, p.getVms.1.lookup name = lastNamed (p.api.GetVMs p.VmsQuery).1 name)
      ∧ (∀ q : CloudProvider,
          (∀ name, lastNamed (q.api.GetVMs q.VmsQuery).1 name
              = lastNamed (p.api.GetVMs p.VmsQuery).1 name) →
          q.getVms.1.entries.Perm p.getVms.1.entries) := by
  refine ⟨rfl, keys_index_nodup _, ?_, fun name => lookup_index _ name, ?_⟩
  · intro name
    constructor
    · intro hk
      obtain ⟨e, he, hek⟩ := List.mem_map.1 hk
      have hl := (mem_index_iff (p.api.GetVMs p.VmsQuery).1 e.1 e.2).1 he
      rw [hek] at hl
      exact ⟨e.2, lastNamed_some _ _ _ hl⟩
    · rintro ⟨v, hv, hn⟩
      cases hl : lastNamed (p.api.GetVMs p.VmsQuery).1 name with
      | none => exact absurd hn ((lastNamed_eq_none _ _).1 hl v hv)
      | some w =>
        exact List.mem_map.2
          ⟨(name, w), (mem_index_iff (p.api.GetVMs p.VmsQuery).1 name w).2 hl, rfl⟩
  · intro q hq
    have hnq : q.getVms.1.entries.Nodup := List.Nodup.of_map _ (keys_index_nodup _)
    have hnp : p.getVms.1.entries.Nodup := List.Nodup.of_map _ (keys_index_nodup _)
    refine (List.perm_ext_iff_of_nodup hnq hnp).2 ?_
    intro e
    rw [show (e ∈ q.getVms.1.entries ↔ _) from mem_index_iff _ e.1 e.2,
      show (e ∈ p.getVms.1.entries ↔ _) from mem_index_iff _ e.1 e.2, hq]

/-- C10 on two lists that differ in order and agree on the last VM of every name: the two
indexes hold the same entries. -/
theorem getVms_index_witness :
    (providerOf [bare "vm-2" "node2" "up", bare "vm-1" "node1" "down", bare "vm-3" "node1" "up"]
        none).getVms.1.entries.Perm
      (providerOf [bare "vm-1" "node1" "down", bare "vm-3" "node1" "up", bare "vm-2" "node2" "up"]
        none).getVms.1.entries :=
  (getVms_index
    (providerOf [bare "vm-1" "node1" "down", bare "vm-3" "node1" "up", bare "vm-2" "node2" "up"]
      none)).2.2.2.2
    (providerOf [bare "vm-2" "node2" "up", bare "vm-1" "node1" "down", bare "vm-3" "node1" "up"]
      none)
    (by
      intro name
      show lastNamed [bare "vm-2" "node2" "up", bare "vm-1" "node1" "down",
          bare "vm-3" "node1" "up"] name
        = lastNamed [bare "vm-1" "node1" "down", bare "vm-3" "node1" "up",
          bare "vm-2" "node2" "up"] name
      by_cases h1 : name = "node1"
      · subst h1; decide
      · by_cases h2 : name = "node2"
        · subst h2; decide
        · have h1b : ¬ "node1" = name := fun e => h1 e.symm
          have h2b : ¬ "node2" = name := fun e => h2 e.symm
          simp [lastNamed, List.filter_cons, bare, h1b, h2b])

/-- C11, as stated, fails: when the index holds a VM whose identifier is the empty string,
`InstanceExistsByProviderID("")` matches it and returns a verdict with a nil error, `true`
for a running one and `false` for a down one. -/
theorem instanceExists_empty_id_counterexample :
    (providerOf [vmNoId] none).InstanceExistsByProviderID "" RangeOrder.stored = (true, none)
      ∧ (providerOf [bare "" "node1" "down"] none).InstanceExistsByProviderID ""
          RangeOrder.stored = (false, none) := by
  decide

/-- C11, amended: whenever `NodeAddresses` returns a nil error, the VM the index holds for
the name has a non-empty identifier, so it never succeeds on a VM whose identifier is empty;
and when no VM held by the index has the empty identifier, `InstanceExistsByProviderID("")`
returns the not-found error, under every enumeration order of the index. -/
theorem empty_id_resolution (p : CloudProvider) (name : String) (ρ : RangeOrder) :
    ((p.NodeAddresses name).2 = none →
        ∃ vm, lastNamed (p.api.GetVMs p.VmsQuery).1 name = some vm ∧ vm.Id ≠ "")
      ∧ ((∀ v, lastNamed (p.api.GetVMs p.VmsQuery).1 v.Name = some v → v.Id ≠ "") →
          p.InstanceExistsByProviderID "" ρ
            = (false, some (GoError.errorf ("there is no instance with ID " ++ "")))) := by
  refine ⟨?_, ?_⟩
  · intro hnil
    cases herr : (p.api.GetVMs p.VmsQuery).2 with
    | some e =>
      rw [nodeAddresses_of_fetch_error p name e herr] at hnil
      simp at hnil
    | none =>
      cases hvm : lastNamed (p.api.GetVMs p.VmsQuery).1 name with
      | none =>
        rw [nodeAddresses_of_absent p name herr hvm] at hnil
        simp at hnil
      | some vm =>
        refine ⟨vm, rfl, ?_⟩
        intro hid
        rw [nodeAddresses_of_empty_id p name vm herr hvm hid] at hnil
        simp at hnil
  · intro hall
    rcases instanceExists_cases p "" ρ with ⟨v, hl, hid, _⟩ | ⟨_, hr⟩
    · exact absurd hid (hall v hl)
    · exact hr

/-- C11, amended, at the spec's scenario: `node1` resolves and its identifier is not empty;
the empty identifier is not found there. -/
theorem empty_id_resolution_witness :
    (∃ vm, lastNamed [node1 "up"] "node1" = some vm ∧ vm.Id ≠ "")
      ∧ (providerOf [node1 "up"] none).InstanceExistsByProviderID "" RangeOrder.stored
          = (false, some (GoError.errorf "there is no instance with ID ")) :=
  ⟨(empty_id_resolution (providerOf [node1 "up"] none) "node1" RangeOrder.stored).1
      (by decide),
   (empty_id_resolution (providerOf [node1 "up"] none) "node1" RangeOrder.stored).2
      (by
        intro v hl
        have h := (lastNamed_some _ _ _ hl).1
        simp only [providerOf, List.mem_singleton] at h
        subst h
        decide)⟩

/-- C12, as stated, fails: with two indexed VMs that share the identifier `vm-1`, one down
and one up, the verdict of `InstanceExistsByProviderID` on one and the same backend result
is `(true, nil)` under one enumeration order of the index and `(false, nil)` under another. -/
theorem instanceExists_order_counterexample :
    (providerOf [bare "vm-1" "node1" "down", bare "vm-1" "node2" "up"]
          none).InstanceExistsByProviderID "vm-1" RangeOrder.stored = (true, none)
      ∧ (providerOf [bare "vm-1" "node1" "down", bare "vm-1" "node2" "up"]
          none).InstanceExistsByProviderID "vm-1" RangeOrder.reversed = (false, none) := by
  decide

/-- C12, amended: two providers whose backends return the same VMs and error give the same
result for `NodeAddresses` and for `InstanceID` on every name; and they give the same result
for `InstanceExistsByProviderID`, under any two enumeration orders of the index, whenever
the VMs held by the index with that identifier agree on whether their status is `down`. -/
theorem results_depend_on_snapshot (p q : CloudProvider) (name providerID : String)
    (ρ σ : RangeOrder) (hsame : p.api.GetVMs p.VmsQuery = q.api.GetVMs q.VmsQuery) :
    p.NodeAddresses name = q.NodeAddresses name
      ∧ p.InstanceID name = q.InstanceID name
      ∧ ((∀ v w, lastNamed (p.api.GetVMs p.VmsQuery).1 v.Name = some v →
            lastNamed (p.api.GetVMs p.VmsQuery).1 w.Name = some w →
            v.Id = providerID → w.Id = providerID →
            (v.Status = "down" ↔ w.Status = "down")) →
          p.InstanceExistsByProviderID providerID ρ
            = q.InstanceExistsByProviderID providerID σ) := by
  have hget : p.getVms = q.getVms := by
    unfold CloudProvider.getVms
    rw [hsame]
  refine ⟨?_, ?_, ?_⟩
  · unfold CloudProvider.NodeAddresses
    rw [hget]
  · unfold CloudProvider.InstanceID
    rw [hget]
  · intro hagree
    rcases instanceExists_cases p providerID ρ with ⟨v, hv, hvid, hr⟩ | ⟨hall, hr⟩
    · rcases instanceExists_cases q providerID σ with ⟨w, hw, hwid, hs⟩ | ⟨hall, _⟩
      · rw [← hsame] at hw
        rw [hr, hs]
        have := hagree v w hv hw hvid hwid
        simp [this]
      · rw [← hsame] at hall
        exact absurd hvid (hall v hv)
    · rcases instanceExists_cases q providerID σ with ⟨w, hw, hwid, _⟩ | ⟨_, hs⟩
      · rw [← hsame] at hw
        exact absurd hwid (hall w hw)
      · rw [hr, hs]

/-- C12, amended, on two providers with different query strings and the same backend
result, under two different enumeration orders. -/
theorem results_depend_on_snapshot_witness :
    (providerOf [node1 "up"] none).NodeAddresses "node1"
        = (CloudProvider.mk "vms?search=name=node*"
            ⟨fun _ => ([node1 "up"], none), ⟨"https://other"⟩⟩).NodeAddresses "node1"
      ∧ (providerOf [node1 "up"] none).InstanceID "node1"
        = (CloudProvider.mk "vms?search=name=node*"
            ⟨fun _ => ([node1 "up"], none), ⟨"https://other"⟩⟩).InstanceID "node1"
      ∧ (providerOf [node1 "up"] none).InstanceExistsByProviderID "vm-1" RangeOrder.stored
        = (CloudProvider.mk "vms?search=name=node*"
            ⟨fun _ => ([node1 "up"], none), ⟨"https://other"⟩⟩).InstanceExistsByProviderID
              "vm-1" RangeOrder.reversed :=
  have h := results_depend_on_snapshot (providerOf [node1 "up"] none)
    (CloudProvider.mk "vms?search=name=node*"
      ⟨fun _ => ([node1 "up"], none), ⟨"https://other"⟩⟩)
    "node1" "vm-1" RangeOrder.stored RangeOrder.reversed rfl
  ⟨h.1, h.2.1, h.2.2 (by
    intro v w hv hw _ _
    have h1 := (lastNamed_some _ _ _ hv).1
    have h2 := (lastNamed_some _ _ _ hw).1
    simp only [providerOf, List.mem_singleton] at h1 h2
    rw [h1, h2])⟩

/-- C13, as stated, fails in two ways: a VM with no interface whose identifier is the empty
string gets the not-found error; and a VM with no interface whose name is carried by a later
VM is not the one resolved, so the addresses of the later VM are returned. -/
theorem nodeAddresses_no_interfaces_counterexample :
    ((bare "" "node1" "up") ∈ [bare "" "node1" "up"]
        ∧ (bare "" "node1" "up").Nics.Nics = []
        ∧ (providerOf [bare "" "node1" "up"] none).NodeAddresses "node1"
            = (Slice.nil, some (GoError.errorf
                ("VM by the name node1 does not exist." ++
                  " The VM may have been removed, or the search query criteria needs correction"))))
      ∧ ((bare "vm-0" "node1" "up") ∈ [bare "vm-0" "node1" "up", node1 "up"]
        ∧ (bare "vm-0" "node1" "up").Nics.Nics = []
        ∧ (providerOf [bare "vm-0" "node1" "up", node1 "up"] none).NodeAddresses "node1"
            = (Slice.of [⟨"10.0.0.5", NodeAddressType.NodeExternalIP⟩], none)) := by
  decide

/-- C13, amended: after a successful fetch, a VM that is the last of the collection to carry
its name and has a non-empty identifier resolves with a nil error to exactly what the walk
over its nics yields, which for a VM with zero interfaces is the allocated slice of length
zero; and in that walk a nic with no devices, or a device with no ips, adds nothing. -/
theorem nodeAddresses_no_interfaces (p : CloudProvider) (name : String) (vm : VM)
    (id nm st : String) (pre post : List Nic) (dpre dpost : List Device) :
    ((p.api.GetVMs p.VmsQuery).2 = none →
        lastNamed (p.api.GetVMs p.VmsQuery).1 name = some vm → vm.Id ≠ "" →
        p.NodeAddresses name = (extractNodeAddresses vm, none)
          ∧ (vm.Nics.Nics = [] → p.NodeAddresses name = (Slice.of [], none)))
      ∧ extractNodeAddresses (withNics id nm st (pre ++ Nic.mk ⟨[]⟩ :: post))
          = extractNodeAddresses (withNics id nm st (pre ++ post))
      ∧ extractNodeAddresses
            (withNics id nm st (pre ++ Nic.mk ⟨dpre ++ Device.mk ⟨[]⟩ :: dpost⟩ :: post))
          = extractNodeAddresses (withNics id nm st (pre ++ Nic.mk ⟨dpre ++ dpost⟩ :: post)) := by
  refine ⟨?_, ?_, ?_⟩
  · intro herr hvm hid
    have hres := nodeAddresses_of_indexed p name vm herr hvm hid
    refine ⟨by rw [hres, extractNodeAddresses_eq], ?_⟩
    intro hn
    rw [hres]
    simp [flattenAddresses, hn]
  · rw [extractNodeAddresses_eq, extractNodeAddresses_eq]
    simp [flattenAddresses, withNics]
  · rw [extractNodeAddresses_eq, extractNodeAddresses_eq]
    simp [flattenAddresses, withNics]

/-- C13, amended, on a collection holding one VM with no interface. -/
theorem nodeAddresses_no_interfaces_witness :
    (providerOf [bare "vm-7" "node7" "up"] none).NodeAddresses "node7" = (Slice.of [], none) :=
  ((nodeAddresses_no_interfaces (providerOf [bare "vm-7" "node7" "up"] none) "node7"
      (bare "vm-7" "node7" "up") "" "" "" [] [] [] []).1 rfl (by decide) (by decide)).2 rfl

/-- C14: `NewOvirtProvider` returns an error exactly when the connection URL is the empty
string, and then no provider; otherwise it returns the provider whose `VmsQuery` is
`vms?follow=nics&search=` followed by the configured fragment, whatever the fragment, and
`getVms` on that provider indexes what the backend answers to exactly that string. -/
theorem newOvirtProvider_query (providerConfig : ProviderConfig) (ovirtApi : OvirtApi) :
    ((NewOvirtProvider providerConfig ovirtApi).2 ≠ none
        ↔ ovirtApi.GetConnectionDetails.Url = "")
      ∧ (ovirtApi.GetConnectionDetails.Url = "" →
          NewOvirtProvider providerConfig ovirtApi
            = (none, some (GoError.errorf "oVirt engine url is empty")))
      ∧ (ovirtApi.GetConnectionDetails.Url ≠ "" →
          NewOvirtProvider providerConfig ovirtApi
            = (some ⟨"vms?follow=nics&search=" ++ providerConfig.Filters.VmsQuery, ovirtApi⟩,
                none))
      ∧ (∀ p, (NewOvirtProvider providerConfig ovirtApi).1 = some p →
          p.VmsQuery = "vms?follow=nics&search=" ++ providerConfig.Filters.VmsQuery
            ∧ p.getVms.2
                = (ovirtApi.GetVMs
                    ("vms?follow=nics&search=" ++ providerConfig.Filters.VmsQuery)).2
            ∧ ∀ name, p.getVms.1.lookup name
                = lastNamed (ovirtApi.GetVMs
                    ("vms?follow=nics&search=" ++ providerConfig.Filters.VmsQuery)).1 name) := by
  by_cases hurl : ovirtApi.GetConnectionDetails.Url = ""
  · have hres : NewOvirtProvider providerConfig ovirtApi
        = (none, some (GoError.errorf "oVirt engine url is empty")) := by
      unfold NewOvirtProvider
      rw [if_pos hurl]
    refine ⟨?_, fun _ => hres, fun h => absurd hurl h, ?_⟩
    · rw [hres]
      simp [hurl]
    · intro p hp
      rw [hres] at hp
      simp at hp
  · have hres : NewOvirtProvider providerConfig ovirtApi
        = (some ⟨"vms?follow=nics&search=" ++ providerConfig.Filters.VmsQuery, ovirtApi⟩,
            none) := by
      unfold NewOvirtProvider
      rw [if_neg hurl]
      rfl
    refine ⟨?_, fun h => absurd h hurl, fun _ => hres, ?_⟩
    · rw [hres]
      simp [hurl]
    · intro p hp
      rw [hres] at hp
      have hp2 : CloudProvider.mk
          ("vms?follow=nics&search=" ++ providerConfig.Filters.VmsQuery) ovirtApi = p :=
        Option.some.inj hp
      subst hp2
      exact ⟨rfl, rfl, fun name => lookup_index _ name⟩

/-- C14 on a backend that names the query it is asked: with the fragment `name=node*` the
fetch asks for `vms?follow=nics&search=name=node*`, with the empty fragment for the bare
prefix, and with an empty URL construction fails. -/
theorem newOvirtProvider_query_witness :
    (∃ p, (NewOvirtProvider ⟨⟨"name=node*"⟩⟩ (echoApi "https://engine")).1 = some p
        ∧ p.getVms.2 = some (GoError.backend "vms?follow=nics&search=name=node*"))
      ∧ (∃ p, (NewOvirtProvider ⟨⟨""⟩⟩ (echoApi "https://engine")).1 = some p
        ∧ p.getVms.2 = some (GoError.backend "vms?follow=nics&search="))
      ∧ NewOvirtProvider ⟨⟨"name=node*"⟩⟩ (echoApi "")
          = (none, some (GoError.errorf "oVirt engine url is empty")) :=
  ⟨⟨⟨"vms?follow=nics&search=name=node*", echoApi "https://engine"⟩, rfl,
      ((newOvirtProvider_query ⟨⟨"name=node*"⟩⟩ (echoApi "https://engine")).2.2.2
        ⟨"vms?follow=nics&search=name=node*", echoApi "https://engine"⟩ rfl).2.1⟩,
   ⟨⟨"vms?follow=nics&search=", echoApi "https://engine"⟩, rfl,
      ((newOvirtProvider_query ⟨⟨""⟩⟩ (echoApi "https://engine")).2.2.2
        ⟨"vms?follow=nics&search=", echoApi "https://engine"⟩ rfl).2.1⟩,
   (newOvirtProvider_query ⟨⟨"name=node*"⟩⟩ (echoApi "")).2.1 rfl⟩

/-- C15, as stated, fails for `AddSSHKeyToAllInstances`: what it returns is a non-nil error
value, the one built by `errors.New("NotImplemented")`. -/
theorem addSSHKey_counterexample :
    (providerOf [node1 "up"] none).AddSSHKeyToAllInstances "root" (Slice.of [115, 115, 104])
        = some (GoError.errorf "NotImplemented")
      ∧ (providerOf [node1 "up"] none).AddSSHKeyToAllInstances "root" (Slice.of [115, 115, 104])
        ≠ none := by
  decide

/-- C15, amended: for every provider and every argument, `LoadBalancer`, `Zones`, `Clusters`
and `Routes` return `(nil, false)`, `ScrubDNS` returns `(nil, nil)`, and
`AddSSHKeyToAllInstances` returns the fixed non-nil error value `NotImplemented`; none of
the results varies with the provider, its backend, or the arguments. -/
theorem declined_capabilities (p : CloudProvider) (nameservers searches : Slice String)
    (user : String) (keyData : Slice Nat) :
    p.LoadBalancer = (none, false)
      ∧ p.Zones = (none, false)
      ∧ p.Clusters = (none, false)
      ∧ p.Routes = (none, false)
      ∧ p.ScrubDNS nameservers searches = (Slice.nil, Slice.nil)
      ∧ p.AddSSHKeyToAllInstances user keyData = some (GoError.errorf "NotImplemented") :=
  ⟨rfl, rfl, rfl, rfl, rfl, rfl⟩

/-- C16: after a successful fetch, when every VM of the list with the identifier has, later
in the list, a VM of the same name with another identifier, `InstanceExistsByProviderID`
returns the not-found error; and when the names of the list are pairwise distinct and so are
its identifiers, it returns what a scan of the raw list for the first VM with the identifier
returns. Both hold under every enumeration order of the index. -/
theorem instanceExists_index_only (p : CloudProvider) (providerID : String) (ρ : RangeOrder)
    (vms : List VM) (hfetch : p.api.GetVMs p.VmsQuery = (vms, none)) :
    ((∀ pre v post, vms = pre ++ v :: post → v.Id = providerID →
          ∃ w ∈ post, w.Name = v.Name ∧ w.Id ≠ providerID) →
        p.InstanceExistsByProviderID providerID ρ
          = (false, some (GoError.errorf ("there is no instance with ID " ++ providerID))))
      ∧ ((vms.map VM.Name).Nodup → (vms.map VM.Id).Nodup →
          p.InstanceExistsByProviderID providerID ρ = linearScan providerID vms) := by
  have hv : (p.api.GetVMs p.VmsQuery).1 = vms := by rw [hfetch]
  constructor
  · intro hshadow
    rcases instanceExists_cases p providerID ρ with ⟨v, hl, hid, _⟩ | ⟨_, hr⟩
    · rw [hv] at hl
      obtain ⟨pre, post, hsplit, hpost⟩ := lastNamed_split vms v.Name v hl
      obtain ⟨w, hw, hname, _⟩ := hshadow pre v post hsplit hid
      exact absurd hname (hpost w hw)
    · exact hr
  · intro hnames hids
    rcases instanceExists_cases p providerID ρ with ⟨v, hl, hid, hr⟩ | ⟨hall, hr⟩
    · rw [hv] at hl
      have hmem := (lastNamed_some _ _ _ hl).1
      rcases linearScan_cases providerID vms with ⟨w, hw, hwid, hs⟩ | ⟨hnone, _⟩
      · have hvw : v = w :=
          List.inj_on_of_nodup_map hids hmem hw (hid.trans hwid.symm)
        rw [hr, hs, hvw]
      · exact absurd hid (hnone v hmem)
    · rw [hv] at hall
      rcases linearScan_cases providerID vms with ⟨w, hw, hwid, _⟩ | ⟨_, hs⟩
      · exact absurd hwid (hall w (lastNamed_of_nodup vms hnames w hw))
      · rw [hr, hs]

/-- C16 on a list where `vm-1` is shadowed by a later VM of the same name, and on a list with
distinct names and identifiers. -/
theorem instanceExists_index_only_witness :
    (providerOf [bare "vm-1" "node1" "down", bare "vm-2" "node1" "up"]
          none).InstanceExistsByProviderID "vm-1" RangeOrder.reversed
        = (false, some (GoError.errorf "there is no instance with ID vm-1"))
      ∧ (providerOf [bare "vm-1" "node1" "down", bare "vm-2" "node2" "up"]
          none).InstanceExistsByProviderID "vm-2" RangeOrder.reversed
        = linearScan "vm-2" [bare "vm-1" "node1" "down", bare "vm-2" "node2" "up"] :=
  ⟨(instanceExists_index_only
      (providerOf [bare "vm-1" "node1" "down", bare "vm-2" "node1" "up"] none)
      "vm-1" RangeOrder.reversed
      [bare "vm-1" "node1" "down", bare "vm-2" "node1" "up"] rfl).1
      (by
        intro pre v post h hid
        rcases pre with _ | ⟨a, _ | ⟨b, _ | ⟨c, rest⟩⟩⟩
        · simp only [List.nil_append, List.cons.injEq] at h
          obtain ⟨h1, h2⟩ := h
          subst h1
          subst h2
          exact ⟨bare "vm-2" "node1" "up", by simp, by decide, by decide⟩
        · simp only [List.cons_append, List.nil_append, List.cons.injEq] at h
          obtain ⟨_, h2, _⟩ := h
          subst h2
          exact absurd hid (by decide)
        · simp at h
        · simp at h),
   (instanceExists_index_only
      (providerOf [bare "vm-1" "node1" "down", bare "vm-2" "node2" "up"] none)
      "vm-2" RangeOrder.reversed
      [bare "vm-1" "node1" "down", bare "vm-2" "node2" "up"] rfl).2
      (by decide) (by decide)⟩

/-- C17: `NodeAddresses` returns a nil error exactly when the fetch returned no error and the
identifier `InstanceID` returns for the name is not empty; after a successful fetch, a name
whose indexed VM has the empty identifier and a name with no VM get one and the same
not-found error. -/
theorem nodeAddresses_iff_instanceID (p : CloudProvider) (name : String) :
    ((p.NodeAddresses name).2 = none ↔
        ((p.api.GetVMs p.VmsQuery).2 = none ∧ (p.InstanceID name).1 ≠ ""))
      ∧ (∀ vm, (p.api.GetVMs p.VmsQuery).2 = none →
          lastNamed (p.api.GetVMs p.VmsQuery).1 name = some vm → vm.Id = "" →
          p.NodeAddresses name = (Slice.nil, some (GoError.errorf
            ("VM by the name " ++ name ++ " does not exist." ++
              " The VM may have been removed, or the search query criteria needs correction"))))
      ∧ ((p.api.GetVMs p.VmsQuery).2 = none →
          lastNamed (p.api.GetVMs p.VmsQuery).1 name = none →
          p.NodeAddresses name = (Slice.nil, some (GoError.errorf
            ("VM by the name " ++ name ++ " does not exist." ++
              " The VM may have been removed, or the search query criteria needs correction")))) := by
  refine ⟨?_, fun vm herr hvm hid => nodeAddresses_of_empty_id p name vm herr hvm hid,
    fun herr hvm => nodeAddresses_of_absent p name herr hvm⟩
  rw [instanceID_eq]
  cases herr : (p.api.GetVMs p.VmsQuery).2 with
  | some e =>
    rw [nodeAddresses_of_fetch_error p name e herr]
    simp
  | none =>
    cases hvm : lastNamed (p.api.GetVMs p.VmsQuery).1 name with
    | none =>
      rw [nodeAddresses_of_absent p name herr hvm]
      simp
    | some vm =>
      by_cases hid : vm.Id = ""
      · rw [nodeAddresses_of_empty_id p name vm herr hvm hid]
        simp [hid]
      · rw [nodeAddresses_of_indexed p name vm herr hvm hid]
        simp [hid]

/-- C17 on a VM present by name with the empty identifier and one address: the error is the
one an absent name gets. -/
theorem nodeAddresses_iff_instanceID_witness :
    (providerOf [vmNoId] none).NodeAddresses "node1"
      = (Slice.nil, some (GoError.errorf
          ("VM by the name node1 does not exist." ++
            " The VM may have been removed, or the search query criteria needs correction"))) :=
  (nodeAddresses_iff_instanceID (providerOf [vmNoId] none) "node1").2.1 vmNoId rfl
    (by decide) (by decide)

/-- C18: on every backend result, `ExternalID` returns a nil error and the identifier that
`InstanceID` returns, which is the `Id` of the last VM of the returned list carrying the
name, or the empty string. -/
theorem externalID_eq_instanceID (p : CloudProvider) (nodeName : String) :
    p.ExternalID nodeName = ((p.InstanceID nodeName).1, none)
      ∧ (p.ExternalID nodeName).1
          = ((lastNamed (p.api.GetVMs p.VmsQuery).1 nodeName).map VM.Id).getD "" := by
  refine ⟨rfl, ?_⟩
  show (p.InstanceID nodeName).1 = _
  rw [instanceID_eq]

/-- C19: the addresses extracted from a VM whose nics are `a` followed by `b` are those
extracted from a VM with nics `a` followed by those extracted from a VM with nics `b`; the
number of addresses is the number of ip records over all nics and devices; and the VM's
`Id`, `Name` and `Status` play no part. The result is always an allocated slice. -/
theorem extractNodeAddresses_append (a b nics : List Nic)
    (id nm st id1 nm1 st1 id2 nm2 st2 : String) (vm : VM) :
    extractNodeAddresses (withNics id nm st (a ++ b))
        = Slice.of ((extractNodeAddresses (withNics id1 nm1 st1 a)).toList
            ++ (extractNodeAddresses (withNics id2 nm2 st2 b)).toList)
      ∧ (extractNodeAddresses vm).toList.length
          = (vm.Nics.Nics.map (fun nic =>
              (nic.Devices.Devices.map (fun dev => dev.Ips.Ips.length)).sum)).sum
      ∧ extractNodeAddresses (withNics id1 nm1 st1 nics)
          = extractNodeAddresses (withNics id2 nm2 st2 nics) := by
  refine ⟨?_, ?_, ?_⟩
  · rw [extractNodeAddresses_eq, extractNodeAddresses_eq, extractNodeAddresses_eq]
    simp [flattenAddresses, withNics, Slice.toList]
  · rw [extractNodeAddresses_eq]
    exact length_flattenAddresses vm
  · rw [extractNodeAddresses_eq, extractNodeAddresses_eq]
    rfl

end Ovirt
